import Mathlib

/-!
Verification development for the texas-bar-scraper repository.

The definitions below are a shallow embedding of the extraction pipeline in
`src/texas_bar.py` (class `TexasBarScraper`), the persistence layer in
`src/database.py` (`insert_attorney` over the schema created by
`init_database`), and the scraper registry guard in `src/run_scrapers.py`
(`run_scraper`).

HTML access through BeautifulSoup is modelled structurally: a fetched page is
a record holding exactly the query results the Python code asks the soup for
(the `.attorney-result, .member-listing, .search-result` selection, the
result table and its rows, the attorney-class divs, and the `Next` pager
href).  Regular-expression searches from the source are implemented as
executable character-list matchers with the same semantics on the pattern in
question.  SQLite state is explicit: lists of rows plus the autoincrement
counters and the connection-level `last_insert_rowid` value that backs
`cursor.lastrowid`.
-/

namespace TexasBar

/-! ## String utilities

`clean_text` and `parse_name` live in `base_scraper.py`, which is not under
`src/`, so they are modelled from the spec (section 4.3 RecordNormalizer).
-/

/-- Splits a character list into maximal whitespace-free words.  The second
argument accumulates the current word in reverse. -/
def words_aux : List Char → List Char → List (List Char)
  | [], acc => if acc.isEmpty then [] else [acc.reverse]
  | c :: rest, acc =>
    if c.isWhitespace then
      if acc.isEmpty then words_aux rest []
      else acc.reverse :: words_aux rest []
    else words_aux rest (c :: acc)

/-- Whitespace-separated words of a string, like Python `str.split()` with no
arguments. -/
def py_split_ws (s : String) : List String :=
  (words_aux s.data []).map (fun l => String.mk l)

/-- Modelled from the spec: `clean_text` from `base_scraper.py` (not in
`src/`): trims whitespace and collapses internal whitespace runs in a text
field. -/
def clean_text (s : String) : String :=
  String.intercalate " " (py_split_ws s)

/-- Modelled from the spec: `parse_name` from `base_scraper.py` (not in
`src/`): first token is the first name, remaining tokens are the last name;
single-token names have an empty first name. -/
def parse_name (full : String) : String × String :=
  match py_split_ws full with
  | [] => ("", "")
  | [single] => ("", single)
  | first :: rest => (first, String.intercalate " " rest)

/-- Lowercases every character of a character list. -/
def lowerL (l : List Char) : List Char := l.map Char.toLower

/-- Case-insensitive test that `pat` is a prefix of `s`. -/
def startsCI (pat s : List Char) : Bool :=
  lowerL (s.take pat.length) == lowerL pat

/-- Python `str.title()` on a character list: an alphabetic character is
uppercased when the previous character is not alphabetic and lowercased
otherwise.  The boolean argument records whether the previous character was
alphabetic. -/
def py_title_aux : Bool → List Char → List Char
  | _, [] => []
  | prevAlpha, c :: rest =>
    (if c.isAlpha then (if prevAlpha then c.toLower else c.toUpper) else c)
      :: py_title_aux c.isAlpha rest

/-- Python `str.title()` on a string. -/
def py_title (s : String) : String := String.mk (py_title_aux false s.data)

/-- Drops leading whitespace, like the regex fragment `\s*`. -/
def skipWS (l : List Char) : List Char := l.dropWhile Char.isWhitespace

/-- Python `str.strip()`: removes leading and trailing whitespace. -/
def py_strip (s : String) : String :=
  String.mk (((s.data.dropWhile Char.isWhitespace).reverse.dropWhile
    Char.isWhitespace).reverse)

/-- Tries a matcher at every suffix of the input, leftmost first, like
`re.search` scanning for the first position where the pattern matches. -/
def scan_positions {α : Type} (f : List Char → Option α) : List Char → Option α
  | [] => f []
  | c :: rest =>
    match f (c :: rest) with
    | some a => some a
    | none => scan_positions f rest

/-! ## Regex matchers used by `src/texas_bar.py` -/

/-- Matcher for `re.search(r'BarNumber=(\d+)', href)` at one position:
requires the literal `BarNumber=` followed by at least one digit and captures
the maximal digit run (texas_bar.py line 170). -/
def href_bar_at (s : List Char) : Option (List Char) :=
  if "BarNumber=".data.isPrefixOf s then
    let ds := (s.drop 10).takeWhile Char.isDigit
    if ds.isEmpty then none else some ds
  else none

/-- `re.search(r'BarNumber=(\d+)', href)` over a whole href string. -/
def extract_bar_href (href : String) : Option String :=
  (scan_positions href_bar_at href.data).map String.mk

/-- `re.match(r'^\d{8}$', text)`: the text is exactly eight digits
(texas_bar.py line 173). -/
def is8digits (t : String) : Bool :=
  t.data.length == 8 && t.data.all Char.isDigit

/-- Takes exactly eight digits from the front of the input, the `(\d{8})`
capture of the bar-number regex in `parse_div_result`. -/
def take8digits (s : List Char) : Option (List Char) :=
  if decide (8 ≤ s.length) && (s.take 8).all Char.isDigit then some (s.take 8)
  else none

/-- The optional label alternatives of `(?:No\.?|Number|#)?` in the
bar-number regex, in regex backtracking order, ending with the empty
alternative for the omitted group. -/
def bar_labels : List (List Char) :=
  ["no.".data, "no".data, "number".data, "#".data, ([] : List Char)]

/-- Matcher for `re.search(r'Bar\s*(?:No\.?|Number|#)?\s*:?\s*(\d{8})', text,
re.I)` at one position (texas_bar.py line 211).  After the case-insensitive
literal `Bar` it skips whitespace, an optional label, whitespace, an optional
colon and whitespace, then captures eight digits. -/
def bar_at (s : List Char) : Option (List Char) :=
  if startsCI "bar".data s then
    let s1 := skipWS (s.drop 3)
    bar_labels.findSome? (fun lab =>
      if startsCI lab s1 then
        let s2 := skipWS (s1.drop lab.length)
        let s3 := if s2.head? == some ':' then skipWS (s2.drop 1) else s2
        take8digits s3
      else none)
  else none

/-- The bar-number search of `parse_div_result` over the block text. -/
def search_bar (text : String) : Option String :=
  (scan_positions bar_at text.data).map String.mk

/-- The city alternatives of the regex
`(Houston|Dallas|Austin|San Antonio|Fort Worth|El Paso)` in
`parse_div_result` (texas_bar.py line 216), in alternation order. -/
def div_city_allowlist : List String :=
  ["Houston", "Dallas", "Austin", "San Antonio", "Fort Worth", "El Paso"]

/-- Matcher for the city regex at one position: the first alternative that
matches case-insensitively yields the matched slice of the input. -/
def city_at (s : List Char) : Option (List Char) :=
  div_city_allowlist.findSome? (fun alt =>
    if startsCI alt.data s then some (s.take alt.data.length) else none)

/-- `city_match.group(1).title()` of `parse_div_result`: the first
case-insensitive occurrence of an allowlisted city, title-cased. -/
def search_city (text : String) : Option String :=
  (scan_positions city_at text.data).map (fun slice =>
    String.mk (py_title_aux false slice))

/-! ## Structural page model -/

/-- An anchor element: its visible text and its `href` attribute. -/
structure Link where
  text : String
  href : String
deriving DecidableEq

/-- A table cell: its text content and its first contained anchor, the
result of `cell.find('a')`. -/
structure Cell where
  text : String
  link : Option Link
deriving DecidableEq

/-- A div-shaped result block as `parse_div_result` queries it:
`nameElemText` is the text of `div.find(['h2','h3','h4','a','strong'])` when
such an element exists, `text` is `div.get_text()`, and `firmNext` records
the firm-label text node search: `none` when no text node matches
`Firm|Company|Employer`, `some none` when one matches but `find_next()`
yields nothing, and `some (some s)` when the following element has text `s`. -/
structure DivData where
  nameElemText : Option String
  text : String
  firmNext : Option (Option String)
deriving DecidableEq

/-- A result block handed to `parse_result`, which dispatches on
`element.name == 'tr'` (texas_bar.py lines 144-148). -/
inductive Block where
  | tr (cells : List Cell)
  | div (d : DivData)
deriving DecidableEq

/-- One fetched results page, holding exactly what `parse_results` queries
from the soup: the strategy-1 selection
`.attorney-result, .member-listing, .search-result`, the rows (header
included) of a table whose class matches `result|member|attorney` when one
exists, the divs whose class matches `member|attorney|result`, and the
`href` of an anchor with `Next`-like text when present. -/
structure Page where
  s1 : List Block
  table : Option (List (List Cell))
  divs : List DivData
  next : Option String

/-- The extraction cascade of `parse_results` (texas_bar.py lines 102-112):
strategy 1 is the direct selection; if it is empty, strategy 2 takes the
table rows after the header; if that is also empty, strategy 3 takes the
attorney-class divs. -/
def select_results (p : Page) : List Block :=
  match p.s1 with
  | b :: bs => b :: bs
  | [] =>
    match (match p.table with
           | some rows => (rows.drop 1).map Block.tr
           | none => []) with
    | x :: xs => x :: xs
    | [] => p.divs.map Block.div

/-! ## Block-level parsers -/

/-- The normalized record dict built by `parse_table_row` and
`parse_div_result`.  The table-row dict carries no `firm_name` key, which
reads back as null, so `firm_name` is `none` there. -/
structure AttorneyRec where
  bar_number : Option String
  full_name : String
  first_name : String
  last_name : String
  status : Option String
  city : Option String
  firm_name : Option String
  practice_areas : List String
deriving DecidableEq

/-- The city allowlist of `parse_table_row` (texas_bar.py line 177). -/
def tr_city_allowlist : List String :=
  ["Houston", "Dallas", "Austin", "San Antonio", "Fort Worth"]

/-- The mutable locals of the cell loop in `parse_table_row`. -/
structure RowState where
  name : Option String
  bar : Option String
  city : Option String
deriving DecidableEq

/-- The `elif` chain of the cell loop (texas_bar.py lines 173-178), reached
when the cell has no link or the name is already set: an exactly-eight-digit
text becomes the bar number; otherwise a text longer than two characters
whose title-cased form is in the allowlist becomes the city. -/
def elif_chain (st : RowState) (text : String) : RowState :=
  if (!(text == "")) && is8digits text then
    { st with bar := some text }
  else if (!(text == "")) && decide (text.length > 2) then
    if tr_city_allowlist.contains (py_title text) then
      { st with city := some (py_title text) }
    else st
  else st

/-- One iteration of the cell loop of `parse_table_row` (texas_bar.py lines
162-178).  When the cell holds a link and no name is set yet (`None` or the
empty string, both falsy), the link text becomes the name and a
`BarNumber=` parameter in the href becomes the bar number; otherwise the
`elif` chain runs on the cleaned cell text. -/
def scan_cell (st : RowState) (cell : Cell) : RowState :=
  let text := clean_text cell.text
  match cell.link with
  | some l =>
    if st.name.getD "" = "" then
      { name := some (clean_text l.text)
        bar := match extract_bar_href l.href with
               | some b => some b
               | none => st.bar
        city := st.city }
    else elif_chain st text
  | none => elif_chain st text

/-- The full cell loop of `parse_table_row`, starting from unset locals. -/
def row_scan (cells : List Cell) : RowState :=
  cells.foldl scan_cell { name := none, bar := none, city := none }

/-- `parse_table_row` (texas_bar.py lines 150-193): rows with fewer than two
cells are dropped, the cell loop fills name, bar number and city, a falsy
name rejects the row, and the record carries the constant status `Active`
and an empty practice-area list. -/
def parse_table_row (cells : List Cell) : Option AttorneyRec :=
  if cells.length < 2 then none
  else
    let st := row_scan cells
    match st.name with
    | none => none
    | some nm =>
      if nm = "" then none
      else
        let fl := parse_name nm
        some { bar_number := st.bar, full_name := nm, first_name := fl.1,
               last_name := fl.2, status := some "Active", city := st.city,
               firm_name := none, practice_areas := [] }

/-- `parse_div_result` (texas_bar.py lines 195-239): the name comes from the
first heading/link/emphasis element, the bar number and city from regex
searches over the block text, the firm from the element following a firm
label (null when the label is absent or nothing follows it), a falsy name
rejects the block, and the record carries the constant status `Active` and
an empty practice-area list. -/
def parse_div_result (d : DivData) : Option AttorneyRec :=
  let name := d.nameElemText.map clean_text
  let bar := search_bar d.text
  let city := search_city d.text
  let firm := match d.firmNext with
              | none => none
              | some none => none
              | some (some s) => some (clean_text s)
  match name with
  | none => none
  | some nm =>
    if nm = "" then none
    else
      let fl := parse_name nm
      some { bar_number := bar, full_name := nm, first_name := fl.1,
             last_name := fl.2, status := some "Active", city := city,
             firm_name := firm, practice_areas := [] }

/-- `parse_result` (texas_bar.py lines 141-148): dispatch on the element
kind. -/
def parse_result (b : Block) : Option AttorneyRec :=
  match b with
  | .tr cells => parse_table_row cells
  | .div d => parse_div_result d

/-- The name the block-level parser resolves for a block, or `none` when no
name resolves: for a table row the name local left by the cell loop when it
is non-falsy, for a div the cleaned text of the first
heading/link/emphasis element when it is non-falsy. -/
def resolved_name (b : Block) : Option String :=
  match b with
  | .tr cells =>
    match (row_scan cells).name with
    | some nm => if nm = "" then none else some nm
    | none => none
  | .div d =>
    match d.nameElemText.map clean_text with
    | some nm => if nm = "" then none else some nm
    | none => none

/-! ## The result loop and pagination of `parse_results` -/

/-- The result loop of `parse_results` (texas_bar.py lines 114-128): each
block that parses to a record is saved through `save_attorney` and counted
in `stats['found']`; blocks that parse to nothing are skipped.  The state is
the found counter together with the list of records handed to persistence. -/
def process_blocks (blocks : List Block) (found : Nat) : Nat × List AttorneyRec :=
  blocks.foldl
    (fun acc b =>
      match parse_result b with
      | some a => (acc.1 + 1, acc.2 ++ [a])
      | none => acc)
    (found, [])

/-- `BASE_URL` of `TexasBarScraper`. -/
def BASE_URL : String := "https://www.texasbar.com"

/-- The next-url normalization of `parse_results` (texas_bar.py lines
134-136): relative hrefs are prefixed with the base url. -/
def absolutize (href : String) : String :=
  if "http".data.isPrefixOf href.data then href else BASE_URL ++ href

/-- The page reached by following the pager link, where `site` maps an
absolute url to the page a successful `get_page` fetch yields: `none` when
the current page has no pager href or the fetch fails, both of which end the
recursion of `parse_results`. -/
def next_page (site : String → Option Page) (p : Page) : Option Page :=
  match p.next with
  | none => none
  | some href => site (absolutize href)

/-- The pagination recursion of `parse_results` (texas_bar.py lines 95-139),
made total with a fuel parameter: each step processes the current page and
follows the pager link.  `none` means the fuel ran out before the traversal
ended, so an unbounded next-chain yields `none` for every fuel; `some n`
means the traversal ended with found counter `n`. -/
def parse_results_go (site : String → Option Page) :
    Nat → Page → Nat → Option Nat
  | 0, _, _ => none
  | Nat.succ fuel, p, found =>
    let found' := (process_blocks (select_results p) found).1
    match next_page site p with
    | none => some found'
    | some p' => parse_results_go site fuel p' found'

/-- The next-chain from a page halts within `n` follow steps: some page at
distance at most `n` has no followable next link. -/
def halts_within (site : String → Option Page) : Nat → Page → Prop
  | 0, p => next_page site p = none
  | Nat.succ n, p =>
    next_page site p = none ∨
      ∃ p', next_page site p = some p' ∧ halts_within site n p'

end TexasBar

namespace DBModel

/-!
## Persistence model (`src/database.py`)

The schema is the one created by `init_database`: the `attorneys` table has
`id INTEGER PRIMARY KEY AUTOINCREMENT`, `state` and `full_name` declared
`NOT NULL`, and `UNIQUE(bar_number, state)`; the `practice_areas` table has
`UNIQUE(attorney_id, practice_area)`.  SQLite semantics encoded here:

* `UNIQUE(bar_number, state)` never treats two NULL `bar_number` values as
  equal, so a row with a null bar number never conflicts and
  `ON CONFLICT(bar_number, state)` can only fire for a non-null bar number;
* the `DO UPDATE SET` clause of `insert_attorney` updates the conflicting
  row in place and leaves `bar_number`, `state`, `id`, `admission_date`,
  `law_school` and `graduation_year` unchanged (they are absent from the
  SET list);
* `cursor.lastrowid` reads the connection-level `sqlite3_last_insert_rowid`
  value after the statement.  A plain INSERT and an `INSERT OR IGNORE` that
  actually inserts set it to the new rowid; an upsert resolved by the
  `DO UPDATE` branch and an ignored `INSERT OR IGNORE` leave it unchanged;
* inserting NULL into a `NOT NULL` column raises `IntegrityError`, which
  `insert_attorney` catches, returning `None`.
-/

/-- The attorney dict passed to `insert_attorney`; every field read with
`attorney_data.get` is nullable. -/
structure AttorneyData where
  bar_number : Option String
  state : Option String
  first_name : Option String
  last_name : Option String
  full_name : Option String
  status : Option String
  admission_date : Option String
  firm_name : Option String
  city : Option String
  county : Option String
  address : Option String
  email : Option String
  phone : Option String
  website : Option String
  law_school : Option String
  graduation_year : Option String
  practice_areas : List String
deriving DecidableEq

/-- A stored row of the `attorneys` table; `state` and `full_name` are
`NOT NULL`. -/
structure ARow where
  id : Nat
  bar_number : Option String
  state : String
  first_name : Option String
  last_name : Option String
  full_name : String
  status : Option String
  admission_date : Option String
  firm_name : Option String
  city : Option String
  county : Option String
  address : Option String
  email : Option String
  phone : Option String
  website : Option String
  law_school : Option String
  graduation_year : Option String
deriving DecidableEq

/-- A stored row of the `practice_areas` table. -/
structure PARow where
  id : Nat
  attorney_id : Nat
  practice_area : String
  is_primary : Bool
deriving DecidableEq

/-- The database connection state: both tables, the autoincrement counters,
and the connection-level last-insert-rowid backing `cursor.lastrowid`. -/
structure DB where
  attorneys : List ARow
  practice_rows : List PARow
  next_attorney_id : Nat
  next_pa_id : Nat
  last_insert_rowid : Nat
deriving DecidableEq

/-- A freshly initialized database, as left by `init_database` on a new
file. -/
def emptyDB : DB :=
  { attorneys := [], practice_rows := [], next_attorney_id := 1,
    next_pa_id := 1, last_insert_rowid := 0 }

/-- The `ON CONFLICT(bar_number, state)` key test against a stored row for a
non-null bar number. -/
def match_key (bn st : String) (r : ARow) : Bool :=
  r.bar_number == some bn && r.state == st

/-- The SQLite membership test behind `INSERT OR IGNORE` on
`UNIQUE(attorney_id, practice_area)`. -/
def containsPA (db : DB) (aid : Nat) (key : String) : Bool :=
  db.practice_rows.any (fun r => r.attorney_id == aid && r.practice_area == key)

/-- The row an `INSERT OR IGNORE` into `practice_areas` adds when it is not
ignored, for the area at `enumerate` index `i`. -/
def new_pa_row (db : DB) (aid : Nat) (key : String) (i : Nat) : PARow :=
  { id := db.next_pa_id, attorney_id := aid, practice_area := key,
    is_primary := i == 0 }

/-- The state change of one inserting `INSERT OR IGNORE` into
`practice_areas`: the new row is appended, the autoincrement counter
advances, and the connection last-insert-rowid becomes the new rowid. -/
def attach_insert (db : DB) (aid : Nat) (key : String) (i : Nat) : DB :=
  { db with practice_rows := db.practice_rows ++ [new_pa_row db aid key i],
            next_pa_id := db.next_pa_id + 1,
            last_insert_rowid := db.next_pa_id }

/-- The practice-area loop of `insert_attorney` (database.py lines 156-163):
for each truthy area, `INSERT OR IGNORE` of the stripped area with
`is_primary` set exactly when its index in the input list is zero.  The
`Nat` argument is the running `enumerate` index. -/
def attach_go (aid : Nat) : DB → Nat → List String → DB
  | db, _, [] => db
  | db, i, area :: rest =>
    if area = "" then attach_go aid db (i + 1) rest
    else
      let key := TexasBar.py_strip area
      if containsPA db aid key then attach_go aid db (i + 1) rest
      else attach_go aid (attach_insert db aid key i) (i + 1) rest

/-- The practice-area attachment of `insert_attorney`, started at index 0. -/
def attach_practice_areas (db : DB) (aid : Nat) (areas : List String) : DB :=
  attach_go aid db 0 areas

/-- The `DO UPDATE SET` clause of `insert_attorney` (database.py lines
122-134) applied to the conflicting row: it sets the eleven listed columns
from the excluded values and touches nothing else. -/
def apply_update (a : AttorneyData) (fn : String) (r : ARow) : ARow :=
  { r with first_name := a.first_name, last_name := a.last_name,
           full_name := fn, status := a.status, firm_name := a.firm_name,
           city := a.city, county := a.county, address := a.address,
           email := a.email, phone := a.phone, website := a.website }

/-- The row built by the INSERT arm of the upsert for non-null `state` and
`full_name`. -/
def mk_row (id : Nat) (a : AttorneyData) (st fn : String) : ARow :=
  { id := id, bar_number := a.bar_number, state := st,
    first_name := a.first_name, last_name := a.last_name, full_name := fn,
    status := a.status, admission_date := a.admission_date,
    firm_name := a.firm_name, city := a.city, county := a.county,
    address := a.address, email := a.email, phone := a.phone,
    website := a.website, law_school := a.law_school,
    graduation_year := a.graduation_year }

/-- A successful INSERT arm: appends the new row, advances the autoincrement
counter, and sets the connection last-insert-rowid to the new id. -/
def insert_new (db : DB) (a : AttorneyData) (st fn : String) : DB :=
  { db with attorneys := db.attorneys ++ [mk_row db.next_attorney_id a st fn],
            next_attorney_id := db.next_attorney_id + 1,
            last_insert_rowid := db.next_attorney_id }

/-- The errors the statements of `insert_attorney` can raise in this model:
a NOT NULL violation on `state` or `full_name`. -/
inductive SqlError where
  | notNullViolation
deriving DecidableEq

/-- The body of `insert_attorney` without its `try`/`except` (database.py
lines 115-165): the upsert INSERTs or, when a row with the same non-null
`(bar_number, state)` exists, UPDATEs it in place; `attorney_id` is then
read from `cursor.lastrowid`, and the practice areas are attached to that
id.  A null `state` or `full_name` raises. -/
def insert_attorney_sql (db : DB) (a : AttorneyData) :
    Except SqlError (Nat × DB) :=
  match a.state, a.full_name with
  | some st, some fn =>
    let db1 :=
      match a.bar_number with
      | some bn =>
        if db.attorneys.any (match_key bn st) then
          { db with
              attorneys :=
                db.attorneys.map (fun r =>
                  if match_key bn st r then apply_update a fn r else r) }
        else insert_new db a st fn
      | none => insert_new db a st fn
    let aid := db1.last_insert_rowid
    Except.ok (aid, attach_practice_areas db1 aid a.practice_areas)
  | _, _ => Except.error SqlError.notNullViolation

/-- `insert_attorney` (database.py lines 111-169): the body runs under
`try`; any raised error is caught and the function returns `None`.  The
result pairs the returned value with the connection state. -/
def insert_attorney (db : DB) (a : AttorneyData) : Option Nat × DB :=
  match insert_attorney_sql db a with
  | Except.ok (i, db') => (some i, db')
  | Except.error _ => (none, db)

end DBModel

namespace Runner

/-!
## Scraper registry guard (`src/run_scrapers.py`)
-/

/-- The `SCRAPERS` registry (run_scrapers.py lines 29-35): state code mapped
to state name, module path and class name. -/
def SCRAPERS : List (String × String × String × String) :=
  [("CA", "California", "scrapers.california_bar", "CaliforniaBarScraper"),
   ("NY", "New York", "scrapers.new_york_bar", "NewYorkBarScraper"),
   ("TX", "Texas", "scrapers.texas_bar", "TexasBarScraper"),
   ("FL", "Florida", "scrapers.florida_bar", "FloridaBarScraper"),
   ("IL", "Illinois", "scrapers.illinois_bar", "IllinoisBarScraper")]

/-- The externally observable effects of a scraper run: which scraper
classes were constructed, how many network requests were issued, and which
scrape-run rows were recorded in the persistent store. -/
structure RunnerState where
  constructions : List String
  network_requests : Nat
  scrape_log_entries : List String
deriving DecidableEq

/-- `run_scraper` (run_scrapers.py lines 38-64).  The known-state branch
performs the dynamic import, constructs the scraper and calls `run`, whose
implementation (`base_scraper.py`) is not under `src/`; it is abstracted as
the `run_known` parameter.  The unknown-state guard is embedded exactly:
when the code is not a key of `SCRAPERS`, the function prints and returns
`False` without touching anything. -/
def run_scraper (run_known : String → RunnerState → Bool × RunnerState)
    (state_code : String) (st : RunnerState) : Bool × RunnerState :=
  if SCRAPERS.any (fun e => e.1 == state_code) then run_known state_code st
  else (false, st)

end Runner

open TexasBar DBModel Runner

/-! ## Concrete inputs used by counterexamples and witnesses -/

/-- A results page whose pager link points back at itself through the site
map `c1_loop_site`: a malformed next link forming a one-page cycle. -/
def c1_loop_page : Page :=
  { s1 := [], table := none, divs := [], next := some "http://loop" }

/-- A site on which every fetch returns the self-linking page. -/
def c1_loop_site : String → Option Page := fun _ => some c1_loop_page

/-- A single page with no pager link, for the termination witness. -/
def c1w_page : Page := { s1 := [], table := none, divs := [], next := none }

/-- An attorney dict with a non-null bar number, the shape the Texas parser
emits, carrying two practice areas. -/
def c2_rec : AttorneyData :=
  { bar_number := some "24001234", state := some "TX",
    first_name := some "John", last_name := some "Smith",
    full_name := some "John Smith", status := some "Active",
    admission_date := none, firm_name := none, city := none, county := none,
    address := none, email := none, phone := none, website := none,
    law_school := none, graduation_year := none,
    practice_areas := ["Litigation", "Family Law"] }

/-- A page on which strategy 1 matched one block. -/
def c3_pageA : Page :=
  { s1 := [Block.div { nameElemText := some "A B", text := "A B",
                       firmNext := none }],
    table := some [[{ text := "h", link := none }],
                   [{ text := "x", link := none }, { text := "y", link := none }]],
    divs := [{ nameElemText := some "C D", text := "C D", firmNext := none }],
    next := none }

/-- The header and data rows of the table-only page `c3_pageB`. -/
def c3_rows : List (List Cell) :=
  [[{ text := "Name", link := none }, { text := "Bar", link := none }],
   [{ text := "John Smith", link := some { text := "John Smith", href := "" } },
    { text := "24001234", link := none }]]

/-- A page matching only the table pattern. -/
def c3_pageB : Page :=
  { s1 := [], table := some c3_rows, divs := [], next := none }

/-- A div block in which no name resolves. -/
def c4_block : Block :=
  Block.div { nameElemText := none, text := "", firmNext := none }

/-- A one-cell table row whose single cell holds a link with a resolvable
name. -/
def c5_row : List Cell :=
  [{ text := "John Smith",
     link := some { text := "John Smith", href := "" } }]

/-- A div block with a resolvable name, for the amended-claim witness. -/
def c5w_block : Block :=
  Block.div { nameElemText := some "Jane Roe", text := "Jane Roe",
              firmNext := none }

/-- A div block whose text carries no status, bar-number, city or firm
information: only a name. -/
def c6_div : DivData :=
  { nameElemText := some "Jane Roe", text := "Jane Roe", firmNext := none }

/-- The record the div parser produces for `c6_div`. -/
def c6_rec : AttorneyRec :=
  { bar_number := none, full_name := "Jane Roe", first_name := "Jane",
    last_name := "Roe", status := some "Active", city := none,
    firm_name := none, practice_areas := [] }

/-- An attorney dict whose ordered practice-area list is non-empty but
starts with an empty string. -/
def c7_rec : AttorneyData :=
  { c2_rec with bar_number := some "1", full_name := some "A B",
                practice_areas := ["", "Family Law"] }

/-- A two-cell row: a named link and a city-like token `Lubbock`, a real
Texas city that is not in the fixed allowlist. -/
def c8_row : List Cell :=
  [{ text := "John Smith",
     link := some { text := "John Smith", href := "" } },
   { text := "Lubbock", link := none }]

/-- A two-cell row whose second cell matches the allowlist after
title-casing. -/
def c8w_row : List Cell :=
  [{ text := "John Smith",
     link := some { text := "John Smith",
                    href := "d?BarNumber=24001234" } },
   { text := "HOUSTON", link := none }]

/-- The record `parse_table_row` produces for `c8w_row`. -/
def c8w_rec : AttorneyRec :=
  { bar_number := some "24001234", full_name := "John Smith",
    first_name := "John", last_name := "Smith", status := some "Active",
    city := some "Houston", firm_name := none, practice_areas := [] }

/-- An effect function standing for the known-state branch of
`run_scraper`. -/
def c9w_effect : String → RunnerState → Bool × RunnerState :=
  fun _ st => (true, st)

/-- An initial runner state with no effects recorded. -/
def c9w_state : RunnerState :=
  { constructions := [], network_requests := 0, scrape_log_entries := [] }

/-- An attorney dict with a null `state`, violating the NOT NULL constraint
of the `attorneys` table. -/
def c10_rec : AttorneyData := { c2_rec with state := none }

/-! ## Shared helper lemmas -/

/-- A boolean `any` is false when the predicate is false on every element. -/
theorem any_eq_false_of {α : Type} (p : α → Bool) :
    ∀ l : List α, (∀ x ∈ l, p x = false) → l.any p = false := by
  intro l h
  induction l with
  | nil => rfl
  | cons x xs ih =>
    simp only [List.any_cons, Bool.or_eq_false_iff]
    exact ⟨h x (List.mem_cons_self x xs), ih (fun y hy => h y (List.mem_cons_of_mem x hy))⟩

/-- `scan_positions` succeeds only through its matcher succeeding on some
suffix of the input. -/
theorem scan_positions_some {α : Type} (f : List Char → Option α) :
    ∀ s a, scan_positions f s = some a → ∃ t, f t = some a := by
  intro s
  induction s with
  | nil => intro a h; exact ⟨[], h⟩
  | cons c rest ih =>
    intro a h
    simp only [scan_positions] at h
    cases hf : f (c :: rest) with
    | some b => rw [hf] at h; exact ⟨c :: rest, hf ▸ h⟩
    | none => rw [hf] at h; exact ih a h

/-- `List.findSome?` succeeds only through some list element. -/
theorem findSome?_mem {α β : Type} (f : α → Option β) :
    ∀ l : List α, ∀ b, l.findSome? f = some b → ∃ a ∈ l, f a = some b := by
  intro l
  induction l with
  | nil => intro b h; simp [List.findSome?] at h
  | cons x xs ih =>
    intro b h
    rw [List.findSome?_cons] at h
    cases hf : f x with
    | some c =>
      rw [hf] at h
      exact ⟨x, List.mem_cons_self x xs, hf.trans h⟩
    | none =>
      rw [hf] at h
      obtain ⟨a, ha, hfa⟩ := ih b h
      exact ⟨a, List.mem_cons_of_mem x ha, hfa⟩

/-- The practice-area loop never touches the `attorneys` table or its
autoincrement counter. -/
theorem attach_go_attorneys (aid : Nat) :
    ∀ areas db i, (attach_go aid db i areas).attorneys = db.attorneys ∧
      (attach_go aid db i areas).next_attorney_id = db.next_attorney_id := by
  intro areas
  induction areas with
  | nil => intro db i; exact ⟨rfl, rfl⟩
  | cons area rest ih =>
    intro db i
    simp only [attach_go]
    split
    · exact ih db (i + 1)
    · split
      · exact ih db (i + 1)
      · exact ih _ (i + 1)

/-! ## C3: extraction cascade ordering -/

/-- C3: the extraction cascade is tried in fixed order and stops at the
first strategy yielding a result.  When the strategy-1 selection matches at
least one element, its blocks are the candidates and the table and div
strategies are never consulted, whatever they would contain; when only the
table pattern matches, exactly the rows after the header row are the
candidate blocks. -/
theorem c3_cascade_order :
    (∀ p : Page, p.s1 ≠ [] → select_results p = p.s1) ∧
    (∀ (p : Page) rows, p.s1 = [] → p.table = some rows → p.divs = [] →
      select_results p = (rows.drop 1).map Block.tr) := by
  constructor
  · intro p h
    unfold select_results
    cases hs : p.s1 with
    | nil => exact absurd hs h
    | cons b bs => rfl
  · intro p rows h1 ht hd
    obtain ⟨s1, tb, dv, nx⟩ := p
    simp only at h1 ht hd
    subst h1; subst ht; subst hd
    unfold select_results
    cases hr : rows.drop 1 with
    | nil => simp [hr]
    | cons x xs => simp [hr]

/-- Witness for C3: on a page where strategy 1 matched, its single block is
the candidate list; on a table-only page, exactly the post-header row is. -/
theorem c3_cascade_order_witness :
    select_results c3_pageA = c3_pageA.s1 ∧
      select_results c3_pageB = (c3_rows.drop 1).map Block.tr := by
  refine ⟨c3_cascade_order.1 c3_pageA (by simp [c3_pageA]),
          c3_cascade_order.2 c3_pageB c3_rows rfl rfl rfl⟩

/-! ## C4: blocks with no resolvable name -/

/-- C4: a matched block in which no name resolves yields no record from the
block-level parser, and processing a page with that block persists nothing
for it and leaves the found counter exactly as if the block were absent. -/
theorem c4_no_name_no_record (b : Block) (h : resolved_name b = none) :
    parse_result b = none ∧
      ∀ pre post found,
        process_blocks (pre ++ b :: post) found =
          process_blocks (pre ++ post) found := by
  have hb : parse_result b = none := by
    cases b with
    | tr cells =>
      simp only [resolved_name] at h
      simp only [parse_result, parse_table_row]
      split
      · rfl
      · cases hn : (row_scan cells).name with
        | none => simp [hn]
        | some nm =>
          simp only [hn] at h
          by_cases he : nm = ""
          · simp [hn, he]
          · simp [he] at h
    | div d =>
      simp only [resolved_name] at h
      simp only [parse_result, parse_div_result]
      cases hn : d.nameElemText.map clean_text with
      | none => simp [hn]
      | some nm =>
        simp only [hn] at h
        by_cases he : nm = ""
        · simp [hn, he]
        · simp [he] at h
  refine ⟨hb, fun pre post found => ?_⟩
  unfold process_blocks
  rw [List.foldl_append, List.foldl_append, List.foldl_cons, hb]

/-- Witness for C4: a nameless div block produces no record and processing
it changes nothing. -/
theorem c4_no_name_no_record_witness :
    parse_result c4_block = none ∧
      process_blocks [c4_block] 0 = process_blocks [] 0 := by
  have h := c4_no_name_no_record c4_block (by decide)
  exact ⟨h.1, h.2 [] [] 0⟩

/-! ## C9: unknown state code -/

/-- C9: for a state code outside the `SCRAPERS` registry, `run_scraper`
returns `False` at once with the runner state untouched: no scraper is
constructed, no network request is issued, and no scrape run is recorded. -/
theorem c9_unknown_state (run_known : String → RunnerState → Bool × RunnerState)
    (code : String) (st : RunnerState)
    (h : SCRAPERS.any (fun e => e.1 == code) = false) :
    run_scraper run_known code st = (false, st) := by
  unfold run_scraper
  rw [h]
  rfl

/-- Witness for C9 at the unknown code `ZZ`. -/
theorem c9_unknown_state_witness :
    run_scraper c9w_effect "ZZ" c9w_state = (false, c9w_state) :=
  c9_unknown_state c9w_effect "ZZ" c9w_state (by decide)

/-! ## C10: insert_attorney never raises -/

/-- C10: `insert_attorney` is total over its `try`-wrapped body: whenever
the SQL layer raises, the error is caught and the call returns `None` with
the connection state unchanged, and the returned value is `None` exactly
when the statements raise, which in this model happens exactly for a null
`state` or `full_name`. -/
theorem c10_no_raise (db : DB) (a : AttorneyData) :
    ((insert_attorney db a).1 = none ↔ (a.state = none ∨ a.full_name = none)) ∧
      (∀ e, insert_attorney_sql db a = Except.error e →
        insert_attorney db a = (none, db)) := by
  unfold insert_attorney insert_attorney_sql
  cases hs : a.state with
  | none => simp
  | some st =>
    cases hf : a.full_name with
    | none => simp
    | some fn => simp

/-- Witness for C10: a record with a null `state` makes the SQL layer raise
and the call returns `None` with the database unchanged. -/
theorem c10_no_raise_witness :
    ((insert_attorney emptyDB c10_rec).1 = none ↔
      (c10_rec.state = none ∨ c10_rec.full_name = none)) ∧
      (∀ e, insert_attorney_sql emptyDB c10_rec = Except.error e →
        insert_attorney emptyDB c10_rec = (none, emptyDB)) :=
  c10_no_raise emptyDB c10_rec

/-! ## C1: pagination termination -/

/-- On the one-page cycle, the pagination recursion never ends, whatever
fuel it is given. -/
theorem loop_go_none : ∀ fuel found,
    parse_results_go c1_loop_site fuel c1_loop_page found = none := by
  intro fuel
  induction fuel with
  | zero => intro found; rfl
  | succ f ih =>
    intro found
    simp only [parse_results_go]
    rw [show next_page c1_loop_site c1_loop_page = some c1_loop_page from rfl]
    exact ih _

/-- Counterexample to C1 as stated: on a site whose page links back to
itself the next locator repeats a locator already seen, yet the traversal
of `parse_results` never reaches Done at all — there is no visited-locator
set in the code, so the bounded-step conclusion fails. -/
theorem c1_counterexample :
    ¬ ∃ fuel r, parse_results_go c1_loop_site fuel c1_loop_page 0 = some r := by
  rintro ⟨fuel, r, h⟩
  rw [loop_go_none fuel 0] at h
  exact Option.noConfusion h

/-- C1 amended: when the next-locator chain from the current page reaches,
within `n` follow steps, a page with no followable next link, the traversal
of `parse_results` terminates within `n + 1` page processings; with no such
absent link (for example, a cycling next-link chain) it never terminates,
as there is no visited-locator cycle guard. -/
theorem c1_termination_when_chain_ends (site : String → Option Page) :
    ∀ (n : Nat) (p : Page) (found fuel : Nat),
      halts_within site n p → n < fuel →
        ∃ r, parse_results_go site fuel p found = some r := by
  intro n
  induction n with
  | zero =>
    intro p found fuel h hf
    simp only [halts_within] at h
    obtain ⟨f, rfl⟩ : ∃ f, fuel = f + 1 := ⟨fuel - 1, by omega⟩
    simp only [parse_results_go]
    rw [h]
    exact ⟨_, rfl⟩
  | succ n ih =>
    intro p found fuel h hf
    simp only [halts_within] at h
    obtain ⟨f, rfl⟩ : ∃ f, fuel = f + 1 := ⟨fuel - 1, by omega⟩
    simp only [parse_results_go]
    rcases h with h | ⟨p', hp', hh⟩
    · rw [h]
      exact ⟨_, rfl⟩
    · rw [hp']
      exact ih p' _ f hh (by omega)

/-- Witness for the amended C1: a page with no pager link terminates within
one processing. -/
theorem c1_termination_when_chain_ends_witness :
    ∃ r, parse_results_go (fun _ => none) 1 c1w_page 0 = some r :=
  c1_termination_when_chain_ends (fun _ => none) 0 c1w_page 0 1
    (show next_page (fun _ => none) c1w_page = none from rfl) (by omega)

/-! ## C2 and C7 counterexamples -/

/-- Counterexample to C2 as stated: inserting the same record (non-null bar
number `24001234`, state `TX`, two practice areas) twice into a fresh
database leaves exactly one stored row, whose identity is 1, but the second
call returns 2 — the stale connection `lastrowid` left by the practice-area
inserts of the first call — so the two calls do not both return the
identity of the stored row. -/
theorem c2_counterexample :
    (insert_attorney emptyDB c2_rec).1 = some 1 ∧
      (insert_attorney (insert_attorney emptyDB c2_rec).2 c2_rec).1 = some 2 ∧
      ((insert_attorney (insert_attorney emptyDB c2_rec).2
          c2_rec).2.attorneys.map ARow.id) = [1] := by
  decide

/-- Counterexample to C7 as stated: a record persisted with the non-empty
ordered practice-area list `["", "Family Law"]` stores no association with
`is_primary` true — the empty first entry is skipped by the `if area:`
guard and the second entry keeps its original index, so its flag is false. -/
theorem c7_counterexample :
    c7_rec.practice_areas ≠ [] ∧
      ((insert_attorney emptyDB c7_rec).2.practice_rows.map
        (fun r => (r.practice_area, r.is_primary))) = [("Family Law", false)] := by
  decide

/-! ## C5, C6 and C8 counterexamples -/

/-- Counterexample to C5 as stated: a one-cell table row whose cell holds a
link with the resolvable name `John Smith` is still rejected, because
`parse_table_row` drops every row with fewer than two cells before looking
at names. -/
theorem c5_counterexample :
    resolved_name (Block.tr c5_row) = some "John Smith" ∧
      parse_result (Block.tr c5_row) = none := by
  decide

/-- Counterexample to C6 as stated: a div block whose text `Jane Roe`
carries no status information produces a record whose status is the
invented constant `Active` rather than null. -/
theorem c6_counterexample :
    parse_div_result c6_div = some c6_rec ∧ c6_rec.status ≠ none := by
  decide

/-- Counterexample to C8 as stated: the city-like token `Lubbock` does not
match the fixed allowlist, and the produced record discards it entirely —
the city field is null and no field preserves the text, contradicting
left-as-is. -/
theorem c8_counterexample :
    tr_city_allowlist.contains (py_title "Lubbock") = false ∧
      parse_table_row c8_row =
        some { bar_number := none, full_name := "John Smith",
               first_name := "John", last_name := "Smith",
               status := some "Active", city := none, firm_name := none,
               practice_areas := [] } := by
  decide

/-! ## C2: idempotent upsert, amended -/

/-- With a null bar number the upsert always takes the INSERT arm: SQLite
unique indexes never match two NULLs. -/
theorem insert_path_nobar (db : DB) (a : AttorneyData) (st fn : String)
    (ha : a.bar_number = none) (hs : a.state = some st)
    (hf : a.full_name = some fn) :
    insert_attorney db a =
      (some db.next_attorney_id,
        attach_practice_areas (insert_new db a st fn) db.next_attorney_id
          a.practice_areas) := by
  unfold insert_attorney insert_attorney_sql
  rw [hs, hf, ha]
  simp [insert_new]

/-- With a non-null bar number and no stored row on the same key, the
upsert takes the INSERT arm. -/
theorem insert_path_fresh (db : DB) (a : AttorneyData) (bn st fn : String)
    (ha : a.bar_number = some bn) (hs : a.state = some st)
    (hf : a.full_name = some fn)
    (hany : db.attorneys.any (match_key bn st) = false) :
    insert_attorney db a =
      (some db.next_attorney_id,
        attach_practice_areas (insert_new db a st fn) db.next_attorney_id
          a.practice_areas) := by
  unfold insert_attorney insert_attorney_sql
  rw [hs, hf, ha]
  simp [hany, insert_new]

/-- With a non-null bar number and a stored row on the same key, the upsert
takes the `DO UPDATE` arm: the conflicting row is overwritten in place and
the returned id is the untouched connection `last_insert_rowid`. -/
theorem insert_path_update (db : DB) (a : AttorneyData) (bn st fn : String)
    (ha : a.bar_number = some bn) (hs : a.state = some st)
    (hf : a.full_name = some fn)
    (hany : db.attorneys.any (match_key bn st) = true) :
    insert_attorney db a =
      (some db.last_insert_rowid,
        attach_practice_areas
          { db with
              attorneys := db.attorneys.map (fun r =>
                if match_key bn st r then apply_update a fn r else r) }
          db.last_insert_rowid a.practice_areas) := by
  unfold insert_attorney insert_attorney_sql
  rw [hs, hf, ha]
  simp [hany]

/-- The `DO UPDATE SET` clause changes neither the conflict key nor the row
identity. -/
theorem match_key_apply_update (bn st : String) (a : AttorneyData)
    (fn : String) (r : ARow) :
    match_key bn st (apply_update a fn r) = match_key bn st r := rfl

/-- The stated behaviour of the amended C2 on one record inserted twice:
the first call returns the new identity, the table grows by one row, the
second call leaves its size unchanged, and after either call exactly one
stored row matches the key and it carries the first call's identity.  (The
second call's return value is deliberately not constrained: it is the stale
connection `last_insert_rowid`.) -/
def c2_upsert_spec (db : DB) (a : AttorneyData) (bn st : String) : Prop :=
  (insert_attorney db a).1 = some db.next_attorney_id ∧
  (insert_attorney db a).2.attorneys.length = db.attorneys.length + 1 ∧
  (insert_attorney (insert_attorney db a).2 a).2.attorneys.length =
    (insert_attorney db a).2.attorneys.length ∧
  ((insert_attorney db a).2.attorneys.filter (match_key bn st)).map ARow.id =
    [db.next_attorney_id] ∧
  ((insert_attorney (insert_attorney db a).2 a).2.attorneys.filter
      (match_key bn st)).map ARow.id = [db.next_attorney_id]

/-- C2 amended: calling `insert_attorney` twice with the same non-null
`(bar_number, state)` pair leaves exactly one stored row on that key — the
second call updates it in place, never inserting a duplicate — and the
first call returns that row's identity; the second call's return value is
the connection's `last_insert_rowid`, which need not be that identity.
Records with a null bar number are inserted as a new identity on every
call. -/
theorem c2_idempotent_key_upsert (db : DB) (a : AttorneyData)
    (bn st fn : String) (ha : a.bar_number = some bn)
    (hs : a.state = some st) (hf : a.full_name = some fn)
    (hfresh : ∀ r ∈ db.attorneys, match_key bn st r = false) :
    c2_upsert_spec db a bn st ∧
      ∀ (db' : DB) (a' : AttorneyData) (st' fn' : String),
        a'.bar_number = none → a'.state = some st' → a'.full_name = some fn' →
          (insert_attorney db' a').1 = some db'.next_attorney_id ∧
          (insert_attorney db' a').2.attorneys.length =
            db'.attorneys.length + 1 := by
  have hany : db.attorneys.any (match_key bn st) = false :=
    any_eq_false_of _ _ hfresh
  have h1 := insert_path_fresh db a bn st fn ha hs hf hany
  have h2 : (insert_attorney db a).2.attorneys =
      db.attorneys ++ [mk_row db.next_attorney_id a st fn] := by
    rw [h1]
    exact (attach_go_attorneys _ _ _ _).1.trans rfl
  have hmk : match_key bn st (mk_row db.next_attorney_id a st fn) = true := by
    simp [match_key, mk_row, ha]
  have hany2 : (insert_attorney db a).2.attorneys.any (match_key bn st) = true := by
    rw [h2]
    simp [hmk]
  have h3 := insert_path_update (insert_attorney db a).2 a bn st fn ha hs hf hany2
  have h4 : (insert_attorney (insert_attorney db a).2 a).2.attorneys =
      (insert_attorney db a).2.attorneys.map (fun r =>
        if match_key bn st r then apply_update a fn r else r) := by
    rw [h3]
    exact (attach_go_attorneys _ _ _ _).1.trans rfl
  have hfilter1 : (insert_attorney db a).2.attorneys.filter (match_key bn st) =
      [mk_row db.next_attorney_id a st fn] := by
    rw [h2, List.filter_append]
    rw [List.filter_eq_nil_iff.2 (fun r hr => by simp [hfresh r hr])]
    simp [hmk]
  refine ⟨⟨?_, ?_, ?_, ?_, ?_⟩, ?_⟩
  · rw [h1]
  · rw [h2]
    simp
  · rw [h4]
    simp
  · rw [hfilter1]
    rfl
  · rw [h4, h2, List.map_append, List.filter_append]
    rw [List.filter_eq_nil_iff.2 ?nilgoal]
    case nilgoal =>
      intro x hx
      obtain ⟨r, hr, rfl⟩ := List.mem_map.1 hx
      rw [if_neg (by simp [hfresh r hr])]
      simp [hfresh r hr]
    rw [List.map_cons, List.map_nil, if_pos (by simp [hmk])]
    simp [match_key_apply_update, hmk]
    rfl
  · intro db' a' st' fn' ha' hs' hf'
    have h := insert_path_nobar db' a' st' fn' ha' hs' hf'
    constructor
    · rw [h]
    · rw [h]
      have := (attach_go_attorneys db'.next_attorney_id a'.practice_areas
        (insert_new db' a' st' fn') 0).1
      simp only [attach_practice_areas]
      rw [this]
      simp [insert_new]

/-- Witness for the amended C2 at a fresh database and the concrete record
`c2_rec`. -/
theorem c2_idempotent_key_upsert_witness :
    c2_upsert_spec emptyDB c2_rec "24001234" "TX" ∧
      ∀ (db' : DB) (a' : AttorneyData) (st' fn' : String),
        a'.bar_number = none → a'.state = some st' → a'.full_name = some fn' →
          (insert_attorney db' a').1 = some db'.next_attorney_id ∧
          (insert_attorney db' a').2.attorneys.length =
            db'.attorneys.length + 1 :=
  c2_idempotent_key_upsert emptyDB c2_rec "24001234" "TX" "John Smith"
    rfl rfl rfl (by intro r hr; simp [emptyDB] at hr)


/-! ## C7: practice-area primary flag and idempotence, amended -/

/-- Attaching practice areas never removes an existing association. -/
theorem attach_go_mono (aid : Nat) (k : String) :
    ∀ areas db i, containsPA db aid k = true →
      containsPA (attach_go aid db i areas) aid k = true := by
  intro areas
  induction areas with
  | nil => intro db i h; exact h
  | cons area rest ih =>
    intro db i h
    simp only [attach_go]
    split
    · exact ih db (i + 1) h
    · split
      · exact ih db (i + 1) h
      · refine ih _ (i + 1) ?_
        simp only [containsPA, attach_insert, List.any_append] at h ⊢
        rw [h]
        rfl

/-- After the attach loop, every non-empty area of the input list is
present (stripped) for the attorney. -/
theorem attach_go_covers (aid : Nat) :
    ∀ areas db i area, area ∈ areas → area ≠ "" →
      containsPA (attach_go aid db i areas) aid (py_strip area) = true := by
  intro areas
  induction areas with
  | nil => intro db i area h; exact absurd h (List.not_mem_nil area)
  | cons hd rest ih =>
    intro db i area hmem hne
    rcases List.mem_cons.1 hmem with rfl | htail
    · simp only [attach_go]
      rw [if_neg hne]
      split
      · next hc => exact attach_go_mono aid (py_strip area) rest _ (i + 1) hc
      · refine attach_go_mono aid (py_strip area) rest _ (i + 1) ?_
        simp [containsPA, attach_insert, new_pa_row, List.any_append]
    · simp only [attach_go]
      split
      · exact ih db (i + 1) area htail hne
      · split
        · exact ih db (i + 1) area htail hne
        · exact ih _ (i + 1) area htail hne

/-- When every non-empty area of the list is already attached, the attach
loop is the identity: every `INSERT OR IGNORE` is ignored. -/
theorem attach_go_stable (aid : Nat) :
    ∀ areas db i,
      (∀ area ∈ areas, area ≠ "" → containsPA db aid (py_strip area) = true) →
      attach_go aid db i areas = db := by
  intro areas
  induction areas with
  | nil => intro db i _; rfl
  | cons hd rest ih =>
    intro db i h
    simp only [attach_go]
    split
    · exact ih db (i + 1) (fun area ha hne => h area (List.mem_cons_of_mem hd ha) hne)
    · next hne =>
      rw [if_pos (h hd (List.mem_cons_self hd rest) hne)]
      exact ih db (i + 1) (fun area ha hne' => h area (List.mem_cons_of_mem hd ha) hne')

/-- The primary-flag invariant for one attorney: an association row for the
attorney is flagged primary exactly when it stores the key area `k`. -/
def pa_flags_ok (aid : Nat) (k : String) (db : DB) : Prop :=
  ∀ r ∈ db.practice_rows, r.attorney_id = aid →
    (r.is_primary = true ↔ r.practice_area = k)

/-- Rows inserted by the attach loop from a positive index are never
flagged primary, so the invariant survives the loop as long as the key area
is already attached. -/
theorem attach_go_flags (aid : Nat) (k : String) :
    ∀ areas db j, pa_flags_ok aid k db → containsPA db aid k = true →
      pa_flags_ok aid k (attach_go aid db (j + 1) areas) := by
  intro areas
  induction areas with
  | nil => intro db j hflag _; exact hflag
  | cons area rest ih =>
    intro db j hflag hcont
    simp only [attach_go]
    split
    · exact ih db (j + 1) hflag hcont
    · split
      · exact ih db (j + 1) hflag hcont
      · next hne hc =>
        refine ih _ (j + 1) ?_ ?_
        · intro r hr haid
          simp only [attach_insert] at hr
          rcases List.mem_append.1 hr with hold | hnew
          · exact hflag r hold haid
          · have hr' : r = new_pa_row db aid (py_strip area) (j + 1) := by
              simpa using hnew
            subst hr'
            simp only [new_pa_row]
            constructor
            · intro hprim
              simp at hprim
            · intro hpa
              exact absurd (by rw [hpa]; exact hcont) hc
        · simp only [containsPA, attach_insert, List.any_append] at hcont ⊢
          rw [hcont]
          rfl

/-- C7 amended: attaching a non-empty ordered practice-area list whose
first entry is a non-empty string to an attorney with no prior
associations stores the stripped first entry with `is_primary` true, flags
every other stored association for that attorney non-primary, and the
attach call is idempotent — re-attaching an already-stored
(identity, practice-area) pair is a no-op that creates no duplicate row.
Empty-string entries are skipped entirely by the `if area:` guard. -/
theorem c7_primary_flag_idempotent (db : DB) (aid : Nat) (a0 : String)
    (rest : List String) (h0 : a0 ≠ "")
    (hfresh : ∀ r ∈ db.practice_rows, r.attorney_id ≠ aid) :
    (∃ r ∈ (attach_practice_areas db aid (a0 :: rest)).practice_rows,
        r.attorney_id = aid ∧ r.practice_area = py_strip a0 ∧
          r.is_primary = true) ∧
    (∀ r ∈ (attach_practice_areas db aid (a0 :: rest)).practice_rows,
        r.attorney_id = aid → (r.is_primary = true ↔ r.practice_area = py_strip a0)) ∧
    (∀ (db2 : DB) (areas : List String),
        attach_practice_areas (attach_practice_areas db2 aid areas) aid areas =
          attach_practice_areas db2 aid areas) := by
  have hcont0 : containsPA db aid (py_strip a0) = false := by
    apply any_eq_false_of
    intro r hr
    simp [hfresh r hr]
  have hstep : attach_practice_areas db aid (a0 :: rest) =
      attach_go aid (attach_insert db aid (py_strip a0) 0) 1 rest := by
    simp only [attach_practice_areas, attach_go]
    rw [if_neg h0, if_neg (by rw [hcont0]; exact Bool.false_ne_true)]
  have hflag1 : pa_flags_ok aid (py_strip a0) (attach_insert db aid (py_strip a0) 0) := by
    intro r hr haid
    simp only [attach_insert] at hr
    rcases List.mem_append.1 hr with hold | hnew
    · exact absurd haid (hfresh r hold)
    · have hr' : r = new_pa_row db aid (py_strip a0) 0 := by
        simpa using hnew
      subst hr'
      simp [new_pa_row]
  have hcont1 : containsPA (attach_insert db aid (py_strip a0) 0) aid
      (py_strip a0) = true := by
    simp [containsPA, attach_insert, new_pa_row, List.any_append]
  have hflagF := attach_go_flags aid (py_strip a0) rest _ 0 hflag1 hcont1
  have hcontF := attach_go_mono aid (py_strip a0) rest _ 1 hcont1
  rw [hstep]
  refine ⟨?_, hflagF, ?_⟩
  · obtain ⟨r, hr, hpr⟩ := List.any_eq_true.1 hcontF
    have hb := Bool.and_eq_true_iff.1 hpr
    have haid : r.attorney_id = aid := by simpa using hb.1
    have hpa : r.practice_area = py_strip a0 := by simpa using hb.2
    exact ⟨r, hr, haid, hpa, (hflagF r hr haid).2 hpa⟩
  · intro db2 areas
    apply attach_go_stable
    intro area hmem hne
    exact attach_go_covers aid areas db2 0 area hmem hne

/-- Witness for the amended C7 at a fresh database and the list
`["Litigation", "Family Law"]`. -/
theorem c7_primary_flag_idempotent_witness :
    (∃ r ∈ (attach_practice_areas emptyDB 1
        ("Litigation" :: ["Family Law"])).practice_rows,
        r.attorney_id = 1 ∧ r.practice_area = py_strip "Litigation" ∧
          r.is_primary = true) ∧
    (∀ r ∈ (attach_practice_areas emptyDB 1
        ("Litigation" :: ["Family Law"])).practice_rows,
        r.attorney_id = 1 →
          (r.is_primary = true ↔ r.practice_area = py_strip "Litigation")) ∧
    (∀ (db2 : DB) (areas : List String),
        attach_practice_areas (attach_practice_areas db2 1 areas) 1 areas =
          attach_practice_areas db2 1 areas) :=
  c7_primary_flag_idempotent emptyDB 1 "Litigation" ["Family Law"]
    (by decide) (by intro r hr; simp [emptyDB] at hr)

/-! ## C5, C6, C8: block-parser field lemmas -/

/-- Field characterization of a successful `parse_table_row`: every field
other than the name comes straight from the cell scan (so it is null when
the scan found nothing), the status is the constant `Active`, and the dict
carries no firm name and no practice areas. -/
theorem parse_table_row_fields (cells : List Cell) (r : AttorneyRec)
    (h : parse_table_row cells = some r) :
    r.status = some "Active" ∧ r.firm_name = none ∧ r.practice_areas = [] ∧
      r.bar_number = (row_scan cells).bar ∧ r.city = (row_scan cells).city := by
  simp only [parse_table_row] at h
  split at h
  · exact absurd h (by simp)
  · cases hn : (row_scan cells).name with
    | none => rw [hn] at h; exact absurd h (by simp)
    | some nm =>
      simp only [hn] at h
      by_cases he : nm = ""
      · rw [if_pos he] at h; exact absurd h (by simp)
      · rw [if_neg he] at h
        have := Option.some.inj h
        subst this
        exact ⟨rfl, rfl, rfl, rfl, rfl⟩

/-- Field characterization of a successful `parse_div_result`: bar number
and city come straight from the regex searches over the block text, the
status is the constant `Active`, the practice-area list is empty, and the
firm name is null whenever no firm-label text node exists or nothing
follows it. -/
theorem parse_div_result_fields (d : DivData) (r : AttorneyRec)
    (h : parse_div_result d = some r) :
    r.status = some "Active" ∧ r.practice_areas = [] ∧
      r.bar_number = search_bar d.text ∧ r.city = search_city d.text ∧
      (d.firmNext = none → r.firm_name = none) ∧
      (d.firmNext = some none → r.firm_name = none) := by
  simp only [parse_div_result] at h
  cases hn : d.nameElemText.map clean_text with
  | none => rw [hn] at h; exact absurd h (by simp)
  | some nm =>
    simp only [hn] at h
    by_cases he : nm = ""
    · rw [if_pos he] at h; exact absurd h (by simp)
    · rw [if_neg he] at h
      have := Option.some.inj h
      subst this
      refine ⟨rfl, rfl, rfl, rfl, ?_, ?_⟩
      · intro hfn; simp [hfn]
      · intro hfn; simp [hfn]

/-! ## C6: no invented fields, amended -/

/-- C6 amended: for every produced record, each field other than the status
is exactly what extraction found in the block — null when nothing was found
— but the status is the invented constant `Active` for every record,
whether or not the block states a status. -/
theorem c6_fields_not_invented_except_status :
    (∀ cells r, parse_table_row cells = some r →
      r.status = some "Active" ∧ r.firm_name = none ∧ r.practice_areas = [] ∧
        r.bar_number = (row_scan cells).bar ∧ r.city = (row_scan cells).city) ∧
    (∀ d r, parse_div_result d = some r →
      r.status = some "Active" ∧ r.practice_areas = [] ∧
        r.bar_number = search_bar d.text ∧ r.city = search_city d.text ∧
        (d.firmNext = none → r.firm_name = none) ∧
        (d.firmNext = some none → r.firm_name = none)) :=
  ⟨parse_table_row_fields, parse_div_result_fields⟩

/-- Witness for the amended C6 at the name-only div block `c6_div`. -/
theorem c6_fields_not_invented_except_status_witness :
    c6_rec.status = some "Active" ∧ c6_rec.practice_areas = [] ∧
      c6_rec.bar_number = search_bar c6_div.text ∧
      c6_rec.city = search_city c6_div.text ∧
      (c6_div.firmNext = none → c6_rec.firm_name = none) ∧
      (c6_div.firmNext = some none → c6_rec.firm_name = none) :=
  c6_fields_not_invented_except_status.2 c6_div c6_rec (by decide)

/-! ## C5: rejection criteria, amended -/

/-- The cell-count guard of `parse_table_row`: a block passes when it is a
div, or a table row with at least two cells. -/
def min_cells_ok (b : Block) : Bool :=
  match b with
  | .tr cells => decide (2 ≤ cells.length)
  | .div _ => true

/-- C5 amended: a block with a resolvable name produces a candidate record
unless it is a table row with fewer than two cells, which `parse_table_row`
rejects before looking for a name; that cell-count check is the only other
rejection criterion. -/
theorem c5_name_yields_candidate (b : Block) (nm : String)
    (h : resolved_name b = some nm) (hc : min_cells_ok b = true) :
    (parse_result b).isSome = true := by
  cases b with
  | tr cells =>
    simp only [resolved_name] at h
    simp only [min_cells_ok, decide_eq_true_eq] at hc
    simp only [parse_result, parse_table_row]
    rw [if_neg (by omega)]
    cases hn : (row_scan cells).name with
    | none => rw [hn] at h; exact absurd h (by simp)
    | some nm' =>
      simp only [hn] at h
      by_cases he : nm' = ""
      · rw [if_pos he] at h; exact absurd h (by simp)
      · simp [hn, he]
  | div d =>
    simp only [resolved_name] at h
    simp only [parse_result, parse_div_result]
    cases hn : d.nameElemText.map clean_text with
    | none => rw [hn] at h; exact absurd h (by simp)
    | some nm' =>
      simp only [hn] at h
      by_cases he : nm' = ""
      · rw [if_pos he] at h; exact absurd h (by simp)
      · simp [hn, he]

/-- Witness for the amended C5 at a named div block. -/
theorem c5_name_yields_candidate_witness :
    (parse_result c5w_block).isSome = true :=
  c5_name_yields_candidate c5w_block "Jane Roe" (by decide) (by decide)

/-! ## C8: city allowlist, amended -/

/-- The `elif` chain either leaves the city local untouched or sets it to a
title-cased member of the fixed allowlist. -/
theorem elif_chain_city (st : RowState) (text : String) :
    (elif_chain st text).city = st.city ∨
      ∃ c, (elif_chain st text).city = some c ∧ c ∈ tr_city_allowlist := by
  unfold elif_chain
  split
  · exact Or.inl rfl
  · split
    · split
      · next hc =>
        exact Or.inr ⟨py_title text, rfl, List.mem_of_elem_eq_true hc⟩
      · exact Or.inl rfl
    · exact Or.inl rfl

/-- The cell loop preserves the allowlist invariant on the city local. -/
theorem row_scan_city_invariant (cells : List Cell) :
    ∀ st : RowState,
      (st.city = none ∨ ∃ c, st.city = some c ∧ c ∈ tr_city_allowlist) →
      ((cells.foldl scan_cell st).city = none ∨
        ∃ c, (cells.foldl scan_cell st).city = some c ∧ c ∈ tr_city_allowlist) := by
  induction cells with
  | nil => intro st h; exact h
  | cons cell rest ih =>
    intro st h
    rw [List.foldl_cons]
    apply ih
    simp only [scan_cell]
    cases hl : cell.link with
    | none =>
      rcases elif_chain_city st (clean_text cell.text) with he | he
      · rw [he]; exact h
      · exact Or.inr he
    | some l =>
      dsimp only
      by_cases hname : st.name.getD "" = ""
      · rw [if_pos hname]
        exact h
      · rw [if_neg hname]
        rcases elif_chain_city st (clean_text cell.text) with he | he
        · rw [he]; exact h
        · exact Or.inr he

/-- Unpacking a successful city search: the stored value is the title-cased
form of a slice of the block text that matches an allowlist alternative
case-insensitively. -/
theorem search_city_some (text c : String) (h : search_city text = some c) :
    ∃ alt slice, alt ∈ div_city_allowlist ∧ startsCI alt.data slice = true ∧
      c = String.mk (py_title_aux false slice) := by
  simp only [search_city] at h
  cases hs : scan_positions city_at text.data with
  | none => rw [hs] at h; exact absurd h (by simp)
  | some slice =>
    rw [hs] at h
    simp only [Option.map] at h
    obtain ⟨t, ht⟩ := scan_positions_some city_at text.data slice hs
    obtain ⟨alt, halt, hf⟩ := findSome?_mem _ div_city_allowlist slice ht
    by_cases hciAlt : startsCI alt.data t = true
    · rw [if_pos hciAlt] at hf
      have hslice := Option.some.inj hf
      refine ⟨alt, slice, halt, ?_, (Option.some.inj h).symm⟩
      rw [← hslice]
      unfold startsCI at hciAlt ⊢
      rwa [List.take_take, Nat.min_self]
    · rw [if_neg hciAlt] at hf
      exact absurd hf (by simp)

/-- C8 amended: the produced city field is never free text — for a table
row it is null or a member of the fixed five-city allowlist (stored
title-cased, as the allowlist members are title-cased), and for a div block
it is null or the title-cased form of a block-text slice matching one of
the six regex city alternatives case-insensitively.  A token that does not
match is discarded: the city stays null and the token is not preserved. -/
theorem c8_city_allowlist_or_null :
    (∀ cells r, parse_table_row cells = some r →
      r.city = none ∨ ∃ c, r.city = some c ∧ c ∈ tr_city_allowlist) ∧
    (∀ d r, parse_div_result d = some r →
      r.city = none ∨
        ∃ alt slice, alt ∈ div_city_allowlist ∧ startsCI alt.data slice = true ∧
          r.city = some (String.mk (py_title_aux false slice))) := by
  constructor
  · intro cells r h
    have hcity := (parse_table_row_fields cells r h).2.2.2.2
    rw [hcity]
    exact row_scan_city_invariant cells _ (Or.inl rfl)
  · intro d r h
    have hcity := (parse_div_result_fields d r h).2.2.2.1
    cases hs : search_city d.text with
    | none => rw [hcity, hs]; exact Or.inl rfl
    | some c =>
      obtain ⟨alt, slice, halt, hci, rfl⟩ := search_city_some d.text c hs
      exact Or.inr ⟨alt, slice, halt, hci, hcity.trans hs⟩

/-- Witness for the amended C8: the row `c8w_row` stores the title-cased
allowlisted city `Houston`. -/
theorem c8_city_allowlist_or_null_witness :
    c8w_rec.city = none ∨ ∃ c, c8w_rec.city = some c ∧ c ∈ tr_city_allowlist :=
  c8_city_allowlist_or_null.1 c8w_row c8w_rec (by decide)
